import Mathlib

/-!
Shallow embedding of `src/aiida/orm/fields.py` (QueryBuilder field mappings):
`QbField` / `QbAttrField`, `QbFieldFilters`, `QbFields` and the field-collection
logic of `EntityFieldMeta.__init__`, together with theorems about the claims
of the specification.
-/

set_option autoImplicit false

namespace AiidaFields

/-- Which concrete Python class a field object belongs to: `QbField` or its
subclass `QbAttrField` (fields.py lines 23 and 194). -/
inductive FieldKind where
  | plain
  | attr
  deriving DecidableEq, Repr

/-- Embedding of a `QbField` / `QbAttrField` instance (fields.py lines 23-69).
`rawKey` is the slot `_key`; `rawQbField` is the slot `_qb_field` after the
constructor default `qb_field if qb_field is not None else key` has been
applied.  Type annotations (`dtype`) are modelled as opaque strings since the
embedding never inspects them. -/
structure QbField where
  kind : FieldKind
  rawKey : String
  rawQbField : String
  dtype : Option String
  doc : String
  subscriptable : Bool
  deriving DecidableEq, Repr

/-- The constructor `QbField.__init__` (fields.py lines 28-49): `_qb_field`
defaults to `key` when the `qb_field` argument is `None`. -/
def QbField.make (kind : FieldKind) (key : String) (qbFieldArg : Option String)
    (dtype : Option String) (doc : String) (subscriptable : Bool) : QbField :=
  { kind := kind
    rawKey := key
    rawQbField := qbFieldArg.getD key
    dtype := dtype
    doc := doc
    subscriptable := subscriptable }

/-- The property `key` (fields.py lines 51-53). -/
def QbField.key (f : QbField) : String := f.rawKey

/-- The property `qb_field`: for `QbField` it returns the slot unchanged
(fields.py lines 55-57); `QbAttrField` overrides it to return
`f'attributes.{self._qb_field}'` (fields.py lines 197-199). -/
def QbField.qbName (f : QbField) : String :=
  match f.kind with
  | .plain => f.rawQbField
  | .attr => "attributes." ++ f.rawQbField

/-- The tuple hashed by `QbField.__hash__`, which is
`hash((self.key, self.qb_field))` (fields.py lines 105-106); two fields hash
identically exactly when these tuples coincide. -/
def QbField.hashTuple (f : QbField) : String × String := (f.key, f.qbName)

/-- `QbField.__getitem__` (fields.py lines 99-103): raises `IndexError` when
the field is not subscriptable, otherwise calls
`self.__class__(f'{self.key}.{key}', f'{self.qb_field}.{key}')` — note that it
reads the `qb_field` *property* (which for `QbAttrField` already carries the
`attributes.` prefix) and that `dtype`, `doc` and `subscriptable` take their
constructor defaults `None`, `''` and `False`. -/
def QbField.getItem (f : QbField) (sub : String) : Except String QbField :=
  if !f.subscriptable then
    .error "This field is not subscriptable"
  else
    .ok (QbField.make f.kind (f.key ++ "." ++ sub) (some (f.qbName ++ "." ++ sub))
      none "" false)

/-- Leaf values stored in filter specifications. -/
inductive JValue where
  | int : Int → JValue
  | str : String → JValue
  deriving DecidableEq, Repr

mutual

/-- A Python value as it occurs inside a `QbFieldFilters` mapping: a leaf
value, a `QbField` object used as a plain value, an insertion-ordered `dict`,
or a `list`. -/
inductive PyVal where
  | leaf : JValue → PyVal
  | obj : QbField → PyVal
  | dict : PyDict → PyVal
  | list : PyList → PyVal

/-- An insertion-ordered Python `dict` with string keys (Python dicts
preserve insertion order; keys are unique). -/
inductive PyDict where
  | nil : PyDict
  | cons : String → PyVal → PyDict → PyDict

/-- A Python `list` of values. -/
inductive PyList where
  | nil : PyList
  | cons : PyVal → PyList → PyList

end

/-- Build a `PyDict` from a list of entries (notation helper). -/
def PyDict.ofList : List (String × PyVal) → PyDict
  | [] => .nil
  | (k, v) :: rest => .cons k v (PyDict.ofList rest)

/-- Build a `PyList` from a list of values (notation helper). -/
def PyList.ofList : List PyVal → PyList
  | [] => .nil
  | v :: rest => .cons v (PyList.ofList rest)

mutual

/-- Structural decidable equality for `PyVal` (hand-written because `deriving`
does not support mutually recursive inductives). -/
def PyVal.decEq : (a b : PyVal) → Decidable (a = b)
  | .leaf a, .leaf b =>
    if h : a = b then .isTrue (by rw [h]) else .isFalse (fun hh => h (by cases hh; rfl))
  | .obj a, .obj b =>
    if h : a = b then .isTrue (by rw [h]) else .isFalse (fun hh => h (by cases hh; rfl))
  | .dict xs, .dict ys =>
    match PyDict.decEq xs ys with
    | .isTrue h => .isTrue (by rw [h])
    | .isFalse h => .isFalse (fun hh => h (by cases hh; rfl))
  | .list xs, .list ys =>
    match PyList.decEq xs ys with
    | .isTrue h => .isTrue (by rw [h])
    | .isFalse h => .isFalse (fun hh => h (by cases hh; rfl))
  | .leaf _, .obj _ => .isFalse (fun h => by cases h)
  | .leaf _, .dict _ => .isFalse (fun h => by cases h)
  | .leaf _, .list _ => .isFalse (fun h => by cases h)
  | .obj _, .leaf _ => .isFalse (fun h => by cases h)
  | .obj _, .dict _ => .isFalse (fun h => by cases h)
  | .obj _, .list _ => .isFalse (fun h => by cases h)
  | .dict _, .leaf _ => .isFalse (fun h => by cases h)
  | .dict _, .obj _ => .isFalse (fun h => by cases h)
  | .dict _, .list _ => .isFalse (fun h => by cases h)
  | .list _, .leaf _ => .isFalse (fun h => by cases h)
  | .list _, .obj _ => .isFalse (fun h => by cases h)
  | .list _, .dict _ => .isFalse (fun h => by cases h)

/-- Decidable equality for dict spines. -/
def PyDict.decEq : (xs ys : PyDict) → Decidable (xs = ys)
  | .nil, .nil => .isTrue rfl
  | .nil, .cons _ _ _ => .isFalse (fun h => by cases h)
  | .cons _ _ _, .nil => .isFalse (fun h => by cases h)
  | .cons k v xs, .cons l w ys =>
    if hk : k = l then
      match PyVal.decEq v w with
      | .isTrue hv =>
        match PyDict.decEq xs ys with
        | .isTrue ht => .isTrue (by rw [hk, hv, ht])
        | .isFalse ht => .isFalse (fun hh => by cases hh; exact ht rfl)
      | .isFalse hv => .isFalse (fun hh => by cases hh; exact hv rfl)
    else .isFalse (fun hh => by cases hh; exact hk rfl)

/-- Decidable equality for list spines. -/
def PyList.decEq : (xs ys : PyList) → Decidable (xs = ys)
  | .nil, .nil => .isTrue rfl
  | .nil, .cons _ _ => .isFalse (fun h => by cases h)
  | .cons _ _, .nil => .isFalse (fun h => by cases h)
  | .cons v xs, .cons w ys =>
    match PyVal.decEq v w with
    | .isTrue hv =>
      match PyList.decEq xs ys with
      | .isTrue ht => .isTrue (by rw [hv, ht])
      | .isFalse ht => .isFalse (fun hh => by cases hh; exact ht rfl)
    | .isFalse hv => .isFalse (fun hh => by cases hh; exact hv rfl)

end

instance : DecidableEq PyVal := PyVal.decEq

instance : DecidableEq PyDict := PyDict.decEq

instance : DecidableEq PyList := PyList.decEq

/-! ### Python dict primitives

Insertion-ordered dict operations, as CPython implements them: membership,
item assignment (`d[k] = v` keeps the position of an existing key and appends
a new key at the end), `pop`, `update`, and in-place `list.append` on the
value stored under a key. -/

/-- Look up the (first, with unique keys: only) entry with key `k`. -/
def PyDict.lookup (d : PyDict) (k : String) : Option PyVal :=
  match d with
  | .nil => none
  | .cons k2 v rest => if k2 == k then some v else rest.lookup k

/-- `k in d` for a Python dict. -/
def dcontains (d : PyDict) (k : String) : Bool :=
  (d.lookup k).isSome

/-- `len(d)` for a Python dict. -/
def PyDict.length (d : PyDict) : Nat :=
  match d with
  | .nil => 0
  | .cons _ _ rest => rest.length + 1

/-- The keys of a dict, in insertion order. -/
def PyDict.keys (d : PyDict) : List String :=
  match d with
  | .nil => []
  | .cons k _ rest => k :: rest.keys

/-- `d[k] = v`: replace in place if the key exists (keeping its position),
otherwise append the new entry at the end. -/
def dassign (d : PyDict) (k : String) (v : PyVal) : PyDict :=
  match d with
  | .nil => .cons k v .nil
  | .cons k2 v2 rest => if k2 == k then .cons k2 v rest else .cons k2 v2 (dassign rest k v)

/-- The remaining dict after `d.pop(k)` (the popped value is `d.lookup k`). -/
def dremove (d : PyDict) (k : String) : PyDict :=
  match d with
  | .nil => .nil
  | .cons k2 v2 rest => if k2 == k then rest else .cons k2 v2 (dremove rest k)

/-- `d1.update(d2)`: assign every entry of `d2` into `d1` in order. -/
def dupdate (d1 d2 : PyDict) : PyDict :=
  match d2 with
  | .nil => d1
  | .cons k v rest => dupdate (dassign d1 k v) rest

/-- Append one element at the end of a `PyList` (`list.append`). -/
def PyList.push : PyList → PyVal → PyList
  | .nil, x => .cons x .nil
  | .cons v rest, x => .cons v (PyList.push rest x)

/-- Append `x` to the Python list stored in a value (used for
`self.filters[logical].append(other.filters)`).  A non-list value is returned
unchanged; Python would raise `AttributeError` there, a path no modelled
behaviour reaches. -/
def pyAppend (v : PyVal) (x : PyVal) : PyVal :=
  match v with
  | .list xs => .list (xs.push x)
  | other => other

/-- `self.filters[logical].append(other.filters)`: in-place append on the
value stored under key `k`. -/
def dappendAt (d : PyDict) (k : String) (x : PyVal) : PyDict :=
  match d with
  | .nil => .nil
  | .cons k2 v rest =>
    if k2 == k then .cons k2 (pyAppend v x) rest else .cons k2 v (dappendAt rest k x)

/-! ### Python `==` on filter values

`QbFieldFilters.__eq__` compares `self.filters == other.filters` with Python
dict equality: same length and, for every key of one dict, an equal value in
the other — insertion order is irrelevant at the dict level, but list order
matters.  CPython's `PyObject_RichCompareBool` short-circuits on object
identity (`v is w`); structurally equal Lean values model identical-or-equal
objects, giving the structural short-circuit in `pyValEq`.  A `QbField`
object compares truthy to anything because `QbField.__eq__` returns a
`QbFieldFilters`, which has no `__bool__`/`__len__` and is therefore always
truthy. -/

mutual

/-- Python `==` on values occurring in filter mappings. -/
def pyValEq (a b : PyVal) : Bool :=
  if a = b then true
  else
    match a, b with
    | .obj _, _ => true
    | _, .obj _ => true
    | .dict xs, .dict ys => Nat.beq xs.length ys.length && pyDictSubset xs ys
    | .list xs, .list ys => pyListEq xs ys
    | _, _ => false

/-- Python `==` on lists: same length and pairwise equal elements. -/
def pyListEq (xs ys : PyList) : Bool :=
  match xs, ys with
  | .nil, .nil => true
  | .cons x xs, .cons y ys => pyValEq x y && pyListEq xs ys
  | _, _ => false

/-- Every entry of `xs` has a Python-equal value under the same key in
`ys`. -/
def pyDictSubset (xs ys : PyDict) : Bool :=
  match xs with
  | .nil => true
  | .cons k v rest =>
    (match ys.lookup k with
     | some w => pyValEq v w
     | none => false)
    && pyDictSubset rest ys

end

/-- Python dict equality: equal lengths and every key of the left dict maps to
a Python-equal value in the right one (with unique keys this is symmetric). -/
def pyDictEq (xs ys : PyDict) : Bool :=
  Nat.beq xs.length ys.length && pyDictSubset xs ys

/-! ### `QbFieldFilters` (fields.py lines 202-275) -/

/-- Embedding of a `QbFieldFilters` object: its `filters` dict. -/
structure QbFieldFilters where
  filters : PyDict
  deriving DecidableEq

/-- One step of the sequence branch of `add_filters` (fields.py lines
223-234): for a triple `(field, comparator, value)`, if `field.qb_field` is
already a key of the accumulated dict, the entry is popped and
`self.filters['and']` is assigned
`[{qb_field: <popped spec>}, {qb_field: {comparator: value}}]`;
otherwise `{comparator: value}` is inserted under `field.qb_field`. -/
def addFilterTriple (d : PyDict) (f : QbField) (comparator : String) (value : PyVal) :
    PyDict :=
  let qb := f.qbName
  match d.lookup qb with
  | some old =>
    dassign (dremove d qb) "and"
      (.list (.cons (.dict (.cons qb old .nil))
        (.cons (.dict (.cons qb (.dict (.cons comparator value .nil)) .nil)) .nil)))
  | none => dassign d qb (.dict (.cons comparator value .nil))

/-- `QbFieldFilters(((field, comparator, value), ...))` — the constructor with
a sequence of triples (fields.py lines 207-209 and 223-234); `self.filters`
starts empty and the triples are folded in order. -/
def QbFieldFilters.ofTriples (ts : List (QbField × String × PyVal)) : QbFieldFilters :=
  ⟨ts.foldl (fun d t => addFilterTriple d t.1 t.2.1 t.2.2) .nil⟩

/-- `QbFieldFilters(dict)` — the constructor with a ready-made mapping
(fields.py lines 207-209 and 219-221): `self.filters` starts empty and is
`update`d with the dict. -/
def QbFieldFilters.ofDict (d : PyDict) : QbFieldFilters :=
  ⟨dupdate .nil d⟩

/-- `QbFieldFilters.__eq__` (fields.py lines 245-249): Python dict equality of
the two `filters` mappings. -/
def QbFieldFilters.pyEquals (a b : QbFieldFilters) : Bool :=
  pyDictEq a.filters b.filters

/-- `QbFieldFilters.__checks` (fields.py lines 259-275): return `self` when
`other == self`; when `self.filters` already has the logical key, append
`other.filters` to its list and return `self`; otherwise `None`.  (`other ==
self` evaluates `other.__eq__(self)`, hence the argument order.) -/
def QbFieldFilters.checks (self other : QbFieldFilters) (logical : String) :
    Option QbFieldFilters :=
  if other.pyEquals self then
    some self
  else if dcontains self.filters logical then
    some ⟨dappendAt self.filters logical (.dict other.filters)⟩
  else
    none

/-- `QbFieldFilters.__and__` (fields.py lines 251-253):
`self.__checks(other, 'and') or QbFieldFilters({'and': [self.filters,
other.filters]})`. -/
def QbFieldFilters.andOp (self other : QbFieldFilters) : QbFieldFilters :=
  match self.checks other "and" with
  | some r => r
  | none =>
    QbFieldFilters.ofDict
      (.cons "and" (.list (.cons (.dict self.filters) (.cons (.dict other.filters) .nil))) .nil)

/-- `QbFieldFilters.__or__` (fields.py lines 255-257). -/
def QbFieldFilters.orOp (self other : QbFieldFilters) : QbFieldFilters :=
  match self.checks other "or" with
  | some r => r
  | none =>
    QbFieldFilters.ofDict
      (.cons "or" (.list (.cons (.dict self.filters) (.cons (.dict other.filters) .nil))) .nil)

/-- Python truthiness of a `QbFieldFilters` object: the class defines neither
`__bool__` nor `__len__`, so every instance is truthy. -/
def QbFieldFilters.truthy (_ : QbFieldFilters) : Bool := true

/-! ### Comparison operators on fields (fields.py lines 111-127) -/

/-- `QbField.__eq__` (fields.py lines 111-112): builds a one-triple
`QbFieldFilters`; it does not compare fields. -/
def QbField.eqOp (f : QbField) (value : PyVal) : QbFieldFilters :=
  .ofTriples [(f, "==", value)]

/-- `QbField.__ne__` (fields.py lines 114-115). -/
def QbField.neOp (f : QbField) (value : PyVal) : QbFieldFilters :=
  .ofTriples [(f, "!=", value)]

/-- `QbField.__lt__` (fields.py lines 117-118). -/
def QbField.ltOp (f : QbField) (value : PyVal) : QbFieldFilters :=
  .ofTriples [(f, "<", value)]

/-- `QbField.__gt__` (fields.py lines 123-124). -/
def QbField.gtOp (f : QbField) (value : PyVal) : QbFieldFilters :=
  .ofTriples [(f, ">", value)]

/-! ### `QbFields` — the read-only field registry (fields.py lines 278-322) -/

/-- The Python exceptions the registry lookups can raise. -/
inductive PyErr where
  | keyError : String → PyErr
  | attributeError : String → PyErr
  deriving DecidableEq, Repr

/-- Embedding of a `QbFields` registry: the insertion-ordered `_fields`
mapping from logical name to field. -/
structure QbFields where
  fields : List (String × QbField)
  deriving DecidableEq, Repr

/-- `QbFields.__getitem__` (fields.py lines 292-294): `self._fields[key]`,
raising `KeyError` on a missing key. -/
def QbFields.getItem (r : QbFields) (k : String) : Except PyErr QbField :=
  match r.fields.lookup k with
  | some f => .ok f
  | none => .error (.keyError k)

/-- `QbFields.__getattr__` (fields.py lines 296-301): `self._fields[key]`,
catching the `KeyError` and raising `AttributeError(key)` instead. -/
def QbFields.getAttr (r : QbFields) (k : String) : Except PyErr QbField :=
  match r.fields.lookup k with
  | some f => .ok f
  | none => .error (.attributeError k)

/-- `QbFields.__iter__` (fields.py lines 311-313): iterate over the field
keys in the order of the `_fields` dict. -/
def QbFields.iterKeys (r : QbFields) : List String :=
  r.fields.map Prod.fst

/-! ### `EntityFieldMeta.__init__` — the field collector (fields.py
lines 325-400) -/

/-- Python's `sorted` on the keys of the collected `fields` dict: a stable
ascending sort by the lexicographic string order, modelled by insertion
sort. -/
def sortStrings (l : List String) : List String :=
  List.insertionSort (· ≤ ·) l

/-- `QbFields({key: fields[key] for key in sorted(fields)})` (fields.py line
400): the registry holds the collected fields keyed in ascending order of
their names. -/
def collectRegistry (fs : List (String × QbField)) : QbFields :=
  ⟨(sortStrings (fs.map Prod.fst)).filterMap fun k =>
    (fs.lookup k).map fun f => (k, f)⟩

/-- The per-field data the collector reads off a pydantic model field:
`field.annotation` (modelled as an opaque string), `field.description`, and
the metadata flags `is_attribute`, `database_alias` and `subscriptable`
fetched through `get_metadata` (fields.py lines 390-398). -/
structure ModelFieldInfo where
  ann : Option String
  description : String
  isAttribute : Bool
  databaseAlias : Option String
  subscriptableFlag : Bool
  deriving DecidableEq, Repr

/-- Lines 390-398 of fields.py: pick `QbAttrField` when the `is_attribute`
metadata is set, and build the field from key, alias, annotation, description
and the `subscriptable` flag. -/
def mkFieldFromModel (key : String) (info : ModelFieldInfo) : QbField :=
  QbField.make (if info.isAttribute then .attr else .plain) key info.databaseAlias
    info.ann info.description info.subscriptableFlag

/-- A base class in the MRO that defines a `Model` in its `__dict__`: its
name and the identity of its `Model` class (a numeral; `0` is reserved for
`pydantic.BaseModel`). -/
structure PyClassRef where
  name : String
  modelId : Nat
  deriving DecidableEq, Repr

/-- The reserved model id for `pydantic.BaseModel`. -/
def pydanticBaseModelId : Nat := 0

/-- The inputs `EntityFieldMeta.__init__` inspects on the class being
constructed. -/
structure ClsInfo where
  /-- `getattr(cls, 'fields', None)` is `None` or already a `QbFields`
  (fields.py lines 341-343). -/
  currentFieldsOk : Bool
  /-- `hasattr(cls, 'Model') and issubclass(cls.Model, BaseModel)` (line
  350). -/
  hasModel : Bool
  /-- `'Model' in cls.__dict__` (line 360). -/
  declaresOwnModel : Bool
  /-- The bases in `cls.__mro__` other than `cls` with `'Model'` in their
  `__dict__` subclassing `BaseModel`, in MRO order (lines 363-367). -/
  mroBasesWithModel : List PyClassRef
  /-- The strict-subclass pairs `(sub, super)` of the `Model` classes in
  play; `issubclass` is this plus reflexivity. -/
  subPairs : List (Nat × Nat)
  /-- The `Model` classes the class's declared `Model` inherits from (not
  read by the source code). -/
  declaredModelBases : List Nat
  /-- `cls.Model.model_fields.items()` in declaration order. -/
  modelFields : List (String × ModelFieldInfo)
  deriving DecidableEq, Repr

/-- `issubclass` on the modelled `Model` classes. -/
def modelIsSub (c : ClsInfo) (a b : Nat) : Bool :=
  a == b || c.subPairs.contains (a, b)

/-- Lines 371-379 of fields.py: the "leaf" bases — those whose `Model` is not
a superclass of another qualifying base's `Model`. -/
def clsBasesWithModelLeaves (c : ClsInfo) : List PyClassRef :=
  c.mroBasesWithModel.filter fun base =>
    c.mroBasesWithModel.all fun b =>
      b == base || !(modelIsSub c b.modelId base.modelId)

/-- Lines 381-388 of fields.py: the `Model` classes of the leaf bases,
defaulting to `{pydantic.BaseModel}` when there are none. -/
def clsModelBases (c : ClsInfo) : List Nat :=
  let ms := (clsBasesWithModelLeaves c).map PyClassRef.modelId
  if ms.isEmpty then [pydanticBaseModelId] else ms

/-- `EntityFieldMeta.__init__` (fields.py lines 337-400).  It raises
`ValueError` when the class already has a non-`QbFields` `fields` attribute;
when the class has a `Model`, it builds one `QbField`/`QbAttrField` per model
field and stores them, sorted by name, as the `fields` registry.  When the
class itself declares the `Model`, the source computes the leaf ancestor
`Model` bases (`clsModelBases`) — and then never uses them: no comparison
against the declared `Model`'s own bases is made and nothing is raised. -/
def entityFieldMetaInit (c : ClsInfo) : Except String QbFields :=
  if !c.currentFieldsOk then
    .error "class already has a fields attribute set"
  else
    let fields : List (String × QbField) :=
      if c.hasModel then
        let _deadModelBases := if c.declaresOwnModel then clsModelBases c else []
        c.modelFields.map fun kf => (kf.1, mkFieldFromModel kf.1 kf.2)
      else []
    .ok (collectRegistry fields)

/-! ### Helper lemmas -/

/-- Python `==` is reflexive on values (CPython's identity short-circuit). -/
theorem pyValEq_self (v : PyVal) : pyValEq v v = true := by
  unfold pyValEq
  exact if_pos rfl

/-- Induction on the dict spine alone (the mutual recursor specialised to a
trivial motive on values). -/
theorem PyDict.inductionOn {motive : PyDict → Prop} (hnil : motive .nil)
    (hcons : ∀ k v rest, motive rest → motive (.cons k v rest)) : ∀ d, motive d
  | .nil => hnil
  | .cons k v rest => hcons k v rest (PyDict.inductionOn hnil hcons rest)

/-- The entries of a dict, as a list of pairs. -/
def PyDict.toList : PyDict → List (String × PyVal)
  | .nil => []
  | .cons k v rest => (k, v) :: rest.toList

theorem mem_keys_of_mem_toList {k : String} {v : PyVal} :
    ∀ {d : PyDict}, (k, v) ∈ d.toList → k ∈ d.keys
  | .nil, h => by simp [PyDict.toList] at h
  | .cons k2 v2 rest, h => by
    simp only [PyDict.toList, List.mem_cons, Prod.mk.injEq] at h
    rcases h with ⟨hk, _⟩ | h
    · simp [PyDict.keys, hk]
    · simp [PyDict.keys, mem_keys_of_mem_toList h]

/-- In a dict with pairwise distinct keys, every entry is found by lookup. -/
theorem lookup_of_mem_nodup {k : String} {v : PyVal} :
    ∀ {d : PyDict}, d.keys.Nodup → (k, v) ∈ d.toList → d.lookup k = some v
  | .nil, _, h => by simp [PyDict.toList] at h
  | .cons k2 v2 rest, hd, h => by
    simp only [PyDict.keys, List.nodup_cons] at hd
    simp only [PyDict.toList, List.mem_cons, Prod.mk.injEq] at h
    rcases h with ⟨hk, hv⟩ | h
    · simp [PyDict.lookup, hk, hv]
    · have hk2 : k2 ≠ k := by
        intro he
        exact hd.1 (he ▸ mem_keys_of_mem_toList h)
      simp [PyDict.lookup, hk2, lookup_of_mem_nodup hd.2 h]

theorem pyDictSubset_of_lookup :
    ∀ {xs ys : PyDict}, (∀ k v, (k, v) ∈ xs.toList → ys.lookup k = some v) →
      pyDictSubset xs ys = true
  | .nil, ys, _ => by rw [pyDictSubset]
  | .cons k v rest, ys, h => by
    rw [pyDictSubset, h k v (by simp [PyDict.toList])]
    simp only [pyValEq_self, Bool.true_and]
    exact pyDictSubset_of_lookup fun k2 v2 hm => h k2 v2 (by simp [PyDict.toList, hm])

/-- Python dict equality is reflexive on dicts with pairwise distinct keys
(every real Python dict). -/
theorem pyDictEq_self (d : PyDict) (hd : d.keys.Nodup) : pyDictEq d d = true := by
  rw [pyDictEq, Nat.beq_refl, pyDictSubset_of_lookup fun k v hm => lookup_of_mem_nodup hd hm]
  rfl

/-- A dict without the key `and` is never Python-equal to a singleton dict
whose key is `and`. -/
theorem pyDictEq_and_singleton {d : PyDict} {v : PyVal}
    (h : dcontains d "and" = false) :
    pyDictEq d (PyDict.cons "and" v .nil) = false := by
  cases d with
  | nil => rfl
  | cons k w rest =>
    have hk : (k == "and") = false := by
      cases hkk : (k == "and") with
      | false => rfl
      | true =>
        rw [dcontains, PyDict.lookup, hkk] at h
        simp at h
    have hand : ("and" == k) = false := by
      rw [beq_eq_false_iff_ne] at hk ⊢
      exact fun he => hk he.symm
    rw [pyDictEq, pyDictSubset, PyDict.lookup, hand]
    simp [PyDict.lookup]

/-! ### Concrete sample objects used in closed theorems -/

/-- The field `pk` of an entity, stored under the database name `id` (the
`Data.fields.pk` example of the test-suite). -/
def pkField : QbField := QbField.make .plain "pk" (some "id") (some "int") "" false

/-- A subscriptable `QbAttrField` named `key1`, as produced for a model field
with `is_attribute=True` and `subscriptable=True`. -/
def attrField : QbField := QbField.make .attr "key1" none (some "int") "" true

/-- The scenario of the repository test `test_invalid_model_subclassses`:
`class IncorrectBaseData(Data)` declares `class Model(Node.Model)`, skipping
`Data.Model`.  Model ids: `0` = `pydantic.BaseModel`, `1` = `Node.Model`,
`2` = `Data.Model`; `Data.Model` subclasses `Node.Model`, the declared
`Model` subclasses only `Node.Model`. -/
def incorrectBaseData : ClsInfo :=
  { currentFieldsOk := true
    hasModel := true
    declaresOwnModel := true
    mroBasesWithModel := [⟨"Data", 2⟩, ⟨"Node", 1⟩]
    subPairs := [(2, 1), (2, 0), (1, 0)]
    declaredModelBases := [1]
    modelFields := [] }

/-! ### The claims -/

/-- C1: claimed: a declared `Model` missing a leaf ancestor `Model` among its
bases makes class construction fail fatally with a descriptive error.  The
code computes the leaf ancestor `Model` set — here exactly `Data.Model`
(id `2`), which the declared `Model` does not inherit (its bases are only
`Node.Model`) — but performs no validation with it and raises nothing:
`EntityFieldMeta.__init__` completes normally.  This contradicts the
repository test `test_invalid_model_subclassses`, which expects a
`RuntimeError` naming the missing base. -/
theorem claim_C1_silent_pass :
    clsModelBases incorrectBaseData = [2] ∧
    (2 : Nat) ∉ incorrectBaseData.declaredModelBases ∧
    entityFieldMetaInit incorrectBaseData = .ok ⟨[]⟩ :=
  ⟨rfl, by decide, rfl⟩

/-- C2: claimed: `(f==v1)&(f!=v2)` yields
`{f.query_name: {'and': [{'==': v1}, {'!=': v2}]}}`.  Evaluating the code on
the `pk` field (query name `id`) with `v1 = 1`, `v2 = 2` instead yields the
top-level mapping `{'and': [{'id': {'==': 1}}, {'id': {'!=': 2}}]}`, which
differs from the claimed shape (the shape the repository test
`test_filter_operators` also expects). -/
theorem claim_C2_actual_shape :
    ((pkField.eqOp (.leaf (.int 1))).andOp (pkField.neOp (.leaf (.int 2)))).filters
      = PyDict.ofList [("and", .list (PyList.ofList
          [.dict (PyDict.ofList [("id", .dict (PyDict.ofList [("==", .leaf (.int 1))]))]),
           .dict (PyDict.ofList [("id", .dict (PyDict.ofList [("!=", .leaf (.int 2))]))])]))] ∧
    PyDict.ofList [("and", .list (PyList.ofList
          [.dict (PyDict.ofList [("id", .dict (PyDict.ofList [("==", .leaf (.int 1))]))]),
           .dict (PyDict.ofList [("id", .dict (PyDict.ofList [("!=", .leaf (.int 2))]))])]))]
      ≠ PyDict.ofList [("id", .dict (PyDict.ofList [("and", .list (PyList.ofList
          [.dict (PyDict.ofList [("==", .leaf (.int 1))]),
           .dict (PyDict.ofList [("!=", .leaf (.int 2))])]))]))] :=
  ⟨rfl, by decide⟩

/-- C3 counterexample: for the subscriptable `QbAttrField` `key1` (query name
`attributes.key1`), the derived field `f["sub"]` has query name
`attributes.attributes.key1.sub` — the `attributes.` prefix appears twice —
and not `f.query_name + "." + "sub" = attributes.key1.sub` as claimed. -/
theorem claim_C3_counterexample :
    (attrField.getItem "sub").map QbField.qbName = .ok "attributes.attributes.key1.sub" ∧
    ("attributes.attributes.key1.sub" : String) ≠ "attributes.key1.sub" ∧
    attrField.qbName ++ "." ++ "sub" = "attributes.key1.sub" :=
  ⟨rfl, by decide, rfl⟩

/-- C3 amended: `f[s]` raises `IndexError` when `f` is not subscriptable;
otherwise it returns a new instance of the same concrete variant with
`key = f.key + "." + s`, whose stored raw query name is
`f.query_name + "." + s`; hence the derived query name is
`f.query_name + "." + s` for a plain `QbField` but
`"attributes." + f.query_name + "." + s` for a `QbAttrField` (the
`attributes.` prefix appears twice). -/
theorem claim_C3_amended (f : QbField) (sub : String) :
    (f.subscriptable = false → f.getItem sub = .error "This field is not subscriptable") ∧
    (f.subscriptable = true →
      f.getItem sub = .ok (QbField.make f.kind (f.key ++ "." ++ sub)
          (some (f.qbName ++ "." ++ sub)) none "" false) ∧
      (f.getItem sub).map QbField.kind = .ok f.kind ∧
      (f.getItem sub).map QbField.key = .ok (f.key ++ "." ++ sub) ∧
      (f.kind = .plain → (f.getItem sub).map QbField.qbName = .ok (f.qbName ++ "." ++ sub)) ∧
      (f.kind = .attr → (f.getItem sub).map QbField.qbName
          = .ok ("attributes." ++ (f.qbName ++ "." ++ sub)))) := by
  constructor
  · intro hs
    simp [QbField.getItem, hs]
  · intro hs
    refine ⟨by simp [QbField.getItem, hs], ?_, ?_, ?_, ?_⟩
    · simp [QbField.getItem, hs]
      rfl
    · simp [QbField.getItem, hs]
      rfl
    · intro hk
      simp [QbField.getItem, hs, QbField.make, QbField.key, QbField.qbName, hk]
      rfl
    · intro hk
      simp [QbField.getItem, hs, QbField.make, QbField.key, QbField.qbName, hk]
      rfl

/-- C3 witness: the amended statement evaluated on the subscriptable
`QbAttrField` `key1` and on a non-subscriptable plain field. -/
theorem claim_C3_witness :
    attrField.getItem "sub" = .ok (QbField.make .attr "key1.sub"
        (some "attributes.key1.sub") none "" false) ∧
    (attrField.getItem "sub").map QbField.qbName
        = .ok ("attributes." ++ ("attributes.key1" ++ "." ++ "sub")) ∧
    pkField.getItem "sub" = .error "This field is not subscriptable" := by
  have ha := (claim_C3_amended attrField "sub").2 rfl
  have hp := (claim_C3_amended pkField "sub").1 rfl
  exact ⟨ha.1, ha.2.2.2.2 rfl, hp⟩

/-- Two plain fields with different keys and query names. -/
def fieldA : QbField := QbField.make .plain "a" none (some "int") "" false

/-- See `fieldA`. -/
def fieldB : QbField := QbField.make .plain "b" none (some "str") "" false

/-- C4 counterexample: equality of fields is not "defined over
`(key, query_name)`": `fieldA == fieldB` does not compare the fields at all —
it returns the filter `{'a': {'==': fieldB}}`, an object that is truthy in
every boolean context even though the two fields have different
`(key, query_name)` hash tuples. -/
theorem claim_C4_counterexample :
    fieldA.hashTuple ≠ fieldB.hashTuple ∧
    (fieldA.eqOp (.obj fieldB)).truthy = true ∧
    (fieldA.eqOp (.obj fieldB)).filters
      = PyDict.ofList [("a", .dict (PyDict.ofList [("==", .obj fieldB)]))] :=
  ⟨by decide, rfl, rfl⟩

/-- C4 amended: the hash is defined over `(key, query_name)` only, so two
fields with identical `(key, query_name)` but different `dtype` hash
identically; `==`, however, is not an equality test: it returns a
`QbFieldFilters` (truthy for every operand) rather than a boolean. -/
theorem claim_C4_amended (f1 f2 : QbField) (hk : f1.key = f2.key)
    (hq : f1.qbName = f2.qbName) (_hd : f1.dtype ≠ f2.dtype) :
    f1.hashTuple = f2.hashTuple ∧ (f1.eqOp (.obj f2)).truthy = true :=
  ⟨by simp [QbField.hashTuple, hk, hq], rfl⟩

/-- The field `fieldA` with a different type annotation. -/
def fieldADouble : QbField := QbField.make .plain "a" none (some "float") "" false

/-- C4 witness: the amended statement at two concrete fields that differ only
in `dtype`. -/
theorem claim_C4_witness :
    fieldA.hashTuple = fieldADouble.hashTuple ∧
    (fieldA.eqOp (.obj fieldADouble)).truthy = true :=
  claim_C4_amended fieldA fieldADouble rfl rfl (by decide)

/-- C5: `a & a == a` and `a | a == a` for every `QbFieldFilters` over a real
Python dict (pairwise distinct keys); more generally, combining with any
structurally (Python-)equal operand returns the left operand unchanged, with
no wrapping under `and`/`or`. -/
theorem claim_C5_idempotence (a : QbFieldFilters) (h : a.filters.keys.Nodup) :
    a.andOp a = a ∧ a.orOp a = a ∧
    ∀ b : QbFieldFilters, b.pyEquals a = true → a.andOp b = a ∧ a.orOp b = a := by
  have hself : QbFieldFilters.pyEquals a a = true := pyDictEq_self a.filters h
  have main : ∀ b : QbFieldFilters, b.pyEquals a = true → a.andOp b = a ∧ a.orOp b = a := by
    intro b hb
    constructor
    · simp [QbFieldFilters.andOp, QbFieldFilters.checks, hb]
    · simp [QbFieldFilters.orOp, QbFieldFilters.checks, hb]
  exact ⟨(main a hself).1, (main a hself).2, main⟩

/-- A two-entry filters mapping. -/
def sampleFilters : QbFieldFilters :=
  ⟨PyDict.ofList [("id", .dict (PyDict.ofList [("==", .leaf (.int 1))])),
                  ("uuid", .dict (PyDict.ofList [("like", .leaf (.str "a%"))]))]⟩

/-- `sampleFilters` with its two entries in the opposite insertion order —
structurally different, Python-equal. -/
def sampleFiltersPerm : QbFieldFilters :=
  ⟨PyDict.ofList [("uuid", .dict (PyDict.ofList [("like", .leaf (.str "a%"))])),
                  ("id", .dict (PyDict.ofList [("==", .leaf (.int 1))]))]⟩

/-- C5 witness: idempotence evaluated on a concrete two-entry filters object,
including combination with a key-permuted (Python-equal) copy. -/
theorem claim_C5_witness :
    sampleFilters.andOp sampleFilters = sampleFilters ∧
    sampleFilters.orOp sampleFilters = sampleFilters ∧
    sampleFilters.andOp sampleFiltersPerm = sampleFilters := by
  have h := claim_C5_idempotence sampleFilters (by decide)
  exact ⟨h.1, h.2.1, (h.2.2 sampleFiltersPerm (by decide)).1⟩

/-- C6: for pairwise Python-distinct filters `a`, `b`, `c` none of whose
mappings has an `and` key, `(a & b) & c` is the single flat mapping
`{'and': [a.filters, b.filters, c.filters]}` — an `and` list of length
three, not a nested `and` of `and`. -/
theorem claim_C6_flat_and (a b c : QbFieldFilters)
    (hba : b.pyEquals a = false) (_hca : c.pyEquals a = false) (_hcb : c.pyEquals b = false)
    (hA : dcontains a.filters "and" = false) (_hB : dcontains b.filters "and" = false)
    (hC : dcontains c.filters "and" = false) :
    ((a.andOp b).andOp c).filters
      = PyDict.cons "and"
          (.list (.cons (.dict a.filters)
            (.cons (.dict b.filters) (.cons (.dict c.filters) .nil))))
          .nil := by
  have hc1 : QbFieldFilters.checks a b "and" = none := by
    simp [QbFieldFilters.checks, hba, hA]
  have h1 : a.andOp b
      = ⟨.cons "and" (.list (.cons (.dict a.filters) (.cons (.dict b.filters) .nil))) .nil⟩ := by
    rw [QbFieldFilters.andOp, hc1]
    rfl
  have hc2 : QbFieldFilters.pyEquals c
      ⟨.cons "and" (.list (.cons (.dict a.filters) (.cons (.dict b.filters) .nil))) .nil⟩
      = false :=
    pyDictEq_and_singleton hC
  rw [h1, QbFieldFilters.andOp, QbFieldFilters.checks, hc2]
  rfl

/-- A one-entry filters mapping on `id`, distinct from `sampleFilters`. -/
def sampleFiltersB : QbFieldFilters :=
  ⟨PyDict.ofList [("id", .dict (PyDict.ofList [("!=", .leaf (.int 2))]))]⟩

/-- A one-entry filters mapping on `ctime`. -/
def sampleFiltersC : QbFieldFilters :=
  ⟨PyDict.ofList [("ctime", .dict (PyDict.ofList [(">", .leaf (.int 3))]))]⟩

/-- C6 witness: the flat three-element `and` list on three concrete pairwise
distinct filters objects. -/
theorem claim_C6_witness :
    ((sampleFilters.andOp sampleFiltersB).andOp sampleFiltersC).filters
      = PyDict.cons "and"
          (.list (.cons (.dict sampleFilters.filters)
            (.cons (.dict sampleFiltersB.filters) (.cons (.dict sampleFiltersC.filters) .nil))))
          .nil :=
  claim_C6_flat_and sampleFilters sampleFiltersB sampleFiltersC
    (by decide) (by decide) (by decide) (by decide) (by decide) (by decide)

/-- C7: looking up a name absent from the registry fails with
`AttributeError` through attribute access and with `KeyError` through
subscript access; a present name returns the registered field through
both. -/
theorem claim_C7_registry_lookup (r : QbFields) (n : String) :
    (r.fields.lookup n = none →
      r.getAttr n = .error (.attributeError n) ∧ r.getItem n = .error (.keyError n)) ∧
    (∀ f, r.fields.lookup n = some f → r.getAttr n = .ok f ∧ r.getItem n = .ok f) := by
  constructor
  · intro h
    constructor
    · simp [QbFields.getAttr, h]
    · simp [QbFields.getItem, h]
  · intro f h
    constructor
    · simp [QbFields.getAttr, h]
    · simp [QbFields.getItem, h]

/-- A registry holding the single field `pk`. -/
def sampleRegistry : QbFields := ⟨[("pk", pkField)]⟩

/-- C7 witness: both error kinds on the missing name `uuid` and both
successful lookups on the present name `pk`. -/
theorem claim_C7_witness :
    (sampleRegistry.getAttr "uuid" = .error (.attributeError "uuid") ∧
     sampleRegistry.getItem "uuid" = .error (.keyError "uuid")) ∧
    (sampleRegistry.getAttr "pk" = .ok pkField ∧
     sampleRegistry.getItem "pk" = .ok pkField) :=
  ⟨(claim_C7_registry_lookup sampleRegistry "uuid").1 rfl,
   (claim_C7_registry_lookup sampleRegistry "pk").2 pkField rfl⟩

theorem lookup_isSome_of_mem_keys :
    ∀ (fs : List (String × QbField)) (k : String), k ∈ fs.map Prod.fst →
      (fs.lookup k).isSome = true
  | [], _, h => by simp at h
  | (k2, f) :: rest, k, h => by
    simp only [List.map_cons, List.mem_cons] at h
    by_cases hk : k == k2
    · simp [List.lookup, hk]
    · rcases h with h | h
      · subst h
        exact absurd (beq_self_eq_true k) hk
      · simp [List.lookup, hk, lookup_isSome_of_mem_keys rest k h]

theorem filterMap_lookup_keys (fs : List (String × QbField)) :
    ∀ (l : List String), (∀ k, k ∈ l → k ∈ fs.map Prod.fst) →
      (l.filterMap fun k => (fs.lookup k).map fun f => (k, f)).map Prod.fst = l
  | [], _ => rfl
  | k :: rest, h => by
    have hk := lookup_isSome_of_mem_keys fs k (h k (by simp))
    rcases ho : fs.lookup k with _ | f
    · rw [ho] at hk
      simp at hk
    · simp only [List.filterMap_cons, ho, Option.map_some', List.map_cons]
      rw [filterMap_lookup_keys fs rest fun k2 hm => h k2 (by simp [hm])]

/-- C8: the registry built by the collector iterates over field names in
ascending order — its key sequence is exactly the sorted key list, it is
sorted, and it is a permutation of the collected names, whatever their
declaration order. -/
theorem claim_C8_sorted_iteration (fs : List (String × QbField)) :
    (collectRegistry fs).iterKeys = sortStrings (fs.map Prod.fst) ∧
    List.Sorted (· ≤ ·) (collectRegistry fs).iterKeys ∧
    ((collectRegistry fs).iterKeys).Perm (fs.map Prod.fst) := by
  have hmem : ∀ k, k ∈ sortStrings (fs.map Prod.fst) → k ∈ fs.map Prod.fst := fun k hk =>
    (List.perm_insertionSort _ _).mem_iff.mp hk
  have he : (collectRegistry fs).iterKeys = sortStrings (fs.map Prod.fst) :=
    filterMap_lookup_keys fs _ hmem
  refine ⟨he, ?_, ?_⟩
  · rw [he]
    exact List.sorted_insertionSort _ _
  · rw [he]
    exact List.perm_insertionSort _ _

/-- C9: building `QbFieldFilters` from three triples on the same field with
query name `q ≠ 'and'` folds only the first collision:
the result is `{'and': [{q: {op1: v1}}, {q: {op2: v2}}], q: {op3: v3}}` —
the third comparison sits beside `and` as a plain key; and a fourth triple on
`q` overwrites the `and` entry with
`{'and': [{q: {op3: v3}}, {q: {op4: v4}}]}`, discarding the first two
specifications. -/
theorem claim_C9_collision_fold (f : QbField) (op1 op2 op3 op4 : String)
    (v1 v2 v3 v4 : PyVal) (hq : f.qbName ≠ "and") :
    (QbFieldFilters.ofTriples [(f, op1, v1), (f, op2, v2), (f, op3, v3)]).filters
      = PyDict.cons "and"
          (.list (.cons (.dict (.cons f.qbName (.dict (.cons op1 v1 .nil)) .nil))
            (.cons (.dict (.cons f.qbName (.dict (.cons op2 v2 .nil)) .nil)) .nil)))
          (.cons f.qbName (.dict (.cons op3 v3 .nil)) .nil) ∧
    (QbFieldFilters.ofTriples [(f, op1, v1), (f, op2, v2), (f, op3, v3), (f, op4, v4)]).filters
      = PyDict.cons "and"
          (.list (.cons (.dict (.cons f.qbName (.dict (.cons op3 v3 .nil)) .nil))
            (.cons (.dict (.cons f.qbName (.dict (.cons op4 v4 .nil)) .nil)) .nil)))
          .nil := by
  have hqq : (f.qbName == f.qbName) = true := beq_self_eq_true _
  have hqa : (f.qbName == "and") = false := by
    rw [beq_eq_false_iff_ne]
    exact hq
  have haq : ("and" == f.qbName) = false := by
    rw [beq_eq_false_iff_ne]
    exact fun e => hq e.symm
  have haa : (("and" : String) == "and") = true := beq_self_eq_true _
  constructor <;>
    simp [QbFieldFilters.ofTriples, List.foldl, addFilterTriple,
      PyDict.lookup, dassign, dremove, hqq, haq, hqa, haa]

/-- C9 witness: the fold evaluated on the `pk` field (query name `id`) with
four concrete comparisons. -/
theorem claim_C9_witness :
    (QbFieldFilters.ofTriples [(pkField, "==", .leaf (.int 1)), (pkField, "!=", .leaf (.int 2)),
        (pkField, ">", .leaf (.int 3))]).filters
      = PyDict.cons "and"
          (.list (.cons (.dict (.cons "id" (.dict (.cons "==" (.leaf (.int 1)) .nil)) .nil))
            (.cons (.dict (.cons "id" (.dict (.cons "!=" (.leaf (.int 2)) .nil)) .nil)) .nil)))
          (.cons "id" (.dict (.cons ">" (.leaf (.int 3)) .nil)) .nil) ∧
    (QbFieldFilters.ofTriples [(pkField, "==", .leaf (.int 1)), (pkField, "!=", .leaf (.int 2)),
        (pkField, ">", .leaf (.int 3)), (pkField, "<", .leaf (.int 4))]).filters
      = PyDict.cons "and"
          (.list (.cons (.dict (.cons "id" (.dict (.cons ">" (.leaf (.int 3)) .nil)) .nil))
            (.cons (.dict (.cons "id" (.dict (.cons "<" (.leaf (.int 4)) .nil)) .nil)) .nil)))
          .nil :=
  claim_C9_collision_fold pkField "==" "!=" ">" "<"
    (.leaf (.int 1)) (.leaf (.int 2)) (.leaf (.int 3)) (.leaf (.int 4)) (by decide)

/-- C10: a field derived by subscription always carries
`subscriptable = False`, `dtype = None` and `doc = ''` — whatever the parent
field's metadata — and can therefore never be subscripted again. -/
theorem claim_C10_derived_metadata (f : QbField) (sub t : String)
    (hs : f.subscriptable = true) :
    (f.getItem sub).map QbField.subscriptable = .ok false ∧
    (f.getItem sub).map QbField.dtype = .ok none ∧
    (f.getItem sub).map QbField.doc = .ok "" ∧
    ((f.getItem sub).bind fun g => g.getItem t)
      = .error "This field is not subscriptable" := by
  refine ⟨?_, ?_, ?_, ?_⟩ <;> (simp [QbField.getItem, hs, QbField.make]; try rfl)

/-- C10 witness: the derived metadata evaluated on the subscriptable
attribute field `key1`, whose own `dtype` and `subscriptable` are set. -/
theorem claim_C10_witness :
    (attrField.getItem "sub").map QbField.subscriptable = .ok false ∧
    (attrField.getItem "sub").map QbField.dtype = .ok none ∧
    (attrField.getItem "sub").map QbField.doc = .ok "" ∧
    ((attrField.getItem "sub").bind fun g => g.getItem "deeper")
      = .error "This field is not subscriptable" :=
  claim_C10_derived_metadata attrField "sub" "deeper" rfl

end AiidaFields
